import Mathlib

/-!
Shallow embedding of the Arkham protocol initialization script: the
reconciliation logic of `main`, its probe helpers (`getAccountInfo`,
`accountExists`, `fetchProtocolConfig`), the decision branches for the
protocol-config account and for the ARKHAM mint, and the sequential
submission of the resulting actions.  Remote effects of the on-chain
instructions (which live in the Anchor program, outside this
repository's script sources) are modelled from the spec where needed
and marked as such.
-/

namespace Arkham

/-- Public keys, modelled as naturals. -/
abbrev PubKey := Nat

/-- Models `PublicKey.default`, the all-zero null identity. -/
def nullKey : PubKey := 0

/-- One `{ regionCode, premiumBps }` entry of the geo-premium table. -/
structure GeoPremium where
  regionCode : Nat
  premiumBps : Nat
deriving DecidableEq, Repr

/-- The desired protocol parameters: the shape of the script constant
`CONFIG_PARAMS`, generalized over its field values. -/
structure DesiredSpec where
  baseRatePerMb : Nat
  protocolFeeBps : Nat
  tierThresholds : List Nat
  tierMultipliers : List Nat
  tokensPer5gb : Nat
  geoPremiums : List GeoPremium
  oracleAuthority : PubKey
deriving DecidableEq, Repr

/-- Models the oracle public-key literal of `CONFIG_PARAMS`: a fixed
non-null identity. -/
def oracleKey : PubKey := 9

/-- The script constant `CONFIG_PARAMS`. -/
def CONFIG_PARAMS : DesiredSpec where
  baseRatePerMb := 1500
  protocolFeeBps := 200
  tierThresholds := [100, 500, 1000]
  tierMultipliers := [10000, 12000, 15000]
  tokensPer5gb := 500000000
  geoPremiums := [⟨0, 5000⟩, ⟨1, 4000⟩, ⟨2, 2000⟩]
  oracleAuthority := oracleKey

/-- A deserialized `protocolConfig` account.  `oracleAuthority` is an
`Option` because the script guards it with a truthiness check
(`!existingConfig.oracleAuthority`), allowing records where the field
is missing. -/
structure ProtocolConfig where
  authority : PubKey
  treasury : PubKey
  baseRatePerMb : Nat
  protocolFeeBps : Nat
  tierThresholds : List Nat
  tierMultipliers : List Nat
  tokensPer5gb : Nat
  geoPremiums : List GeoPremium
  oracleAuthority : Option PubKey
  arkhamTokenMint : PubKey
  reputationUpdater : PubKey
deriving DecidableEq, Repr

/-- The `needsOracleUpdate` condition of `main`:
`!existingConfig.oracleAuthority || existingConfig.oracleAuthority.equals(PublicKey.default) || !existingConfig.oracleAuthority.equals(CONFIG_PARAMS.oracleAuthority)`. -/
def needsOracleUpdate (cfg : ProtocolConfig) (desired : DesiredSpec) : Bool :=
  match cfg.oracleAuthority with
  | none => true
  | some o => o == nullKey || o != desired.oracleAuthority

/-- The argument list of the `updateProtocolConfig` instruction call:
one optional slot per field; `none` means "keep existing". -/
structure UpdateArgs where
  baseRatePerMb : Option Nat
  protocolFeeBps : Option Nat
  tierThresholds : Option (List Nat)
  tierMultipliers : Option (List Nat)
  tokensPer5gb : Option Nat
  geoPremiums : Option (List GeoPremium)
  reputationUpdater : Option PubKey
  oracleAuthority : Option PubKey
deriving DecidableEq, Repr

/-- The arguments the script's `updateProtocolConfig` function passes:
every configuration field is re-sent from the desired parameters, and
only `reputationUpdater` is passed as `null` ("keep existing"). -/
def updateProtocolConfigArgs (d : DesiredSpec) : UpdateArgs where
  baseRatePerMb := some d.baseRatePerMb
  protocolFeeBps := some d.protocolFeeBps
  tierThresholds := some d.tierThresholds
  tierMultipliers := some d.tierMultipliers
  tokensPer5gb := some d.tokensPer5gb
  geoPremiums := some d.geoPremiums
  reputationUpdater := none
  oracleAuthority := some d.oracleAuthority

/-- The ledger-mutating submissions the script can perform.
`initialize` carries the desired parameters and the treasury key (the
script passes the wallet authority as treasury). -/
inductive Action where
  | initializeConfig (d : DesiredSpec) (treasury : PubKey)
  | update (args : UpdateArgs)
  | close
  | initializeDependent
deriving DecidableEq, Repr

/-- Step 4 of `main`: the decision for the protocol-config account,
as a pure function of the raw existence probe and the deserialization
result. -/
def decidePrimary (d : DesiredSpec) (physExists : Bool)
    (existingConfig : Option ProtocolConfig) (authority : PubKey) : List Action :=
  if !physExists then
    [Action.initializeConfig d authority]
  else
    match existingConfig with
    | none => [Action.close, Action.initializeConfig d authority]
    | some cfg =>
      if needsOracleUpdate cfg d then [Action.update (updateProtocolConfigArgs d)]
      else []

/-- The three-way classification of a probed resource. -/
inductive ObservedState where
  | absent
  | incompatible
  | compatible (cfg : ProtocolConfig)
deriving DecidableEq, Repr

/-- How the probe pair of `main` (raw existence plus deserialization
result) classifies the account. -/
def classify (physExists : Bool) (existingConfig : Option ProtocolConfig) : ObservedState :=
  if !physExists then ObservedState.absent
  else
    match existingConfig with
    | none => ObservedState.incompatible
    | some cfg => ObservedState.compatible cfg

/-- The script's `getAccountInfo` helper: the underlying fetch either
returns the account info (possibly null) or throws; the catch turns a
thrown transport error into `null`. -/
def getAccountInfo {ε α : Type} (r : Except ε (Option α)) : Option α :=
  match r with
  | Except.ok v => v
  | Except.error _ => none

/-- The script's `accountExists` helper: `getAccountInfo` wrapped in a
try/catch, comparing the result against null; a thrown error yields
`false`. -/
def accountExists {ε α : Type} (r : Except ε (Option α)) : Bool :=
  match r with
  | Except.ok v => v.isSome
  | Except.error _ => false

/-- The script's `fetchProtocolConfig` helper: wraps
`program.account.protocolConfig.fetch` in a try/catch; any failure
(missing account or deserialization error) becomes `null` instead of a
propagated exception. -/
def fetchProtocolConfig {ε : Type} (r : Except ε ProtocolConfig) : Option ProtocolConfig :=
  match r with
  | Except.ok cfg => some cfg
  | Except.error _ => none

/-- Modelled from the spec: the byte-level account deserializer (Anchor's
generated decoder for `protocolConfig`; the on-chain program is not in
the script sources).  Geo-premium entries are consecutive
`(regionCode, premiumBps)` pairs; an odd tail is a parse failure. -/
def parseGeo : List Nat → Option (List GeoPremium)
  | [] => some []
  | [_] => none
  | r :: p :: rest =>
    match parseGeo rest with
    | some geo => some (⟨r, p⟩ :: geo)
    | none => none

/-- The possible deserialization failures named by the spec. -/
inductive DecodeFailure where
  | badDiscriminant
  | unknownVersion
  | wrongLength
deriving DecidableEq, Repr

/-- The 8-byte account discriminant the decoder expects. -/
def CONFIG_DISCRIMINANT : List Nat := [218, 244, 33, 104, 203, 35, 14, 145]

/-- Modelled from the spec: decoding stored bytes into a
`ProtocolConfig`.  The bytes must start with the 8-byte discriminant,
then a version tag (must be 1), eight scalar fields, a tier count `n`
followed by `n` thresholds and `n` multipliers, and finally the
geo-premium pairs; anything else is a decode error, never an
unclassified fault. -/
def decodeProtocolConfig (bytes : List Nat) : Except DecodeFailure ProtocolConfig :=
  if bytes.take 8 ≠ CONFIG_DISCRIMINANT then Except.error DecodeFailure.badDiscriminant
  else
    match bytes.drop 8 with
    | v :: auth :: treas :: br :: fee :: tok :: orc :: mint :: rep :: n :: rest =>
      if v ≠ 1 then Except.error DecodeFailure.unknownVersion
      else if 2 * n ≤ rest.length then
        match parseGeo ((rest.drop n).drop n) with
        | some geo =>
          Except.ok
            { authority := auth
              treasury := treas
              baseRatePerMb := br
              protocolFeeBps := fee
              tierThresholds := rest.take n
              tierMultipliers := (rest.drop n).take n
              tokensPer5gb := tok
              geoPremiums := geo
              oracleAuthority := some orc
              arkhamTokenMint := mint
              reputationUpdater := rep }
        | none => Except.error DecodeFailure.wrongLength
      else Except.error DecodeFailure.wrongLength
    | _ => Except.error DecodeFailure.wrongLength

/-- The remote ledger as the run observes it: the protocol-config
account is absent (`none`), present but undecodable (`some none`) or
present and decodable (`some (some cfg)`); `accounts` records raw
existence at every other address (in particular the mint PDA). -/
structure Ledger where
  primary : Option (Option ProtocolConfig)
  accounts : PubKey → Bool

/-- The outcome of `program.account.protocolConfig.fetch` against a
ledger: it throws when the account is absent or undecodable. -/
def primaryFetchOutcome (L : Ledger) : Except Unit ProtocolConfig :=
  match L.primary with
  | some (some cfg) => Except.ok cfg
  | _ => Except.error ()

/-- What `fetchProtocolConfig` returns against a ledger. -/
def primaryFetch (L : Ledger) : Option ProtocolConfig :=
  fetchProtocolConfig (primaryFetchOutcome L)

/-- The parameters of one run of `main`: the desired configuration, the
wallet authority, the derived mint PDA, and which submissions the
remote ledger confirms (`false` models a failed/rejected
transaction). -/
structure RunEnv where
  desired : DesiredSpec
  authority : PubKey
  mintPda : PubKey
  submitOk : Action → Bool

/-- Point update of an existence map. -/
def setAccount (f : PubKey → Bool) (k : PubKey) : PubKey → Bool :=
  fun a => if a = k then true else f a

/-- Modelled from the spec: the effect of a confirmed
`initializeProtocolConfig` instruction (on-chain program not in the
script sources): the account holds the desired parameters, the given
authority and treasury, a set oracle authority, and a null dependent
link. -/
def initConfig (d : DesiredSpec) (authority treasury : PubKey) : ProtocolConfig where
  authority := authority
  treasury := treasury
  baseRatePerMb := d.baseRatePerMb
  protocolFeeBps := d.protocolFeeBps
  tierThresholds := d.tierThresholds
  tierMultipliers := d.tierMultipliers
  tokensPer5gb := d.tokensPer5gb
  geoPremiums := d.geoPremiums
  oracleAuthority := some d.oracleAuthority
  arkhamTokenMint := nullKey
  reputationUpdater := nullKey

/-- Modelled from the spec: the effect of a confirmed
`updateProtocolConfig` instruction: each `some` argument overwrites the
corresponding field, each `none` argument leaves it unchanged. -/
def applyUpdate (cfg : ProtocolConfig) (a : UpdateArgs) : ProtocolConfig where
  authority := cfg.authority
  treasury := cfg.treasury
  baseRatePerMb := a.baseRatePerMb.getD cfg.baseRatePerMb
  protocolFeeBps := a.protocolFeeBps.getD cfg.protocolFeeBps
  tierThresholds := a.tierThresholds.getD cfg.tierThresholds
  tierMultipliers := a.tierMultipliers.getD cfg.tierMultipliers
  tokensPer5gb := a.tokensPer5gb.getD cfg.tokensPer5gb
  geoPremiums := a.geoPremiums.getD cfg.geoPremiums
  oracleAuthority :=
    match a.oracleAuthority with
    | some o => some o
    | none => cfg.oracleAuthority
  arkhamTokenMint := cfg.arkhamTokenMint
  reputationUpdater := a.reputationUpdater.getD cfg.reputationUpdater

/-- Modelled from the spec: the ledger effect of each confirmed
submission.  `initializeDependent` creates the mint account at the
mint PDA and records its address in the config's dependent link. -/
def applyAction (env : RunEnv) (L : Ledger) : Action → Ledger
  | Action.initializeConfig d treas =>
    { L with primary := some (some (initConfig d env.authority treas)) }
  | Action.update args =>
    match L.primary with
    | some (some cfg) => { L with primary := some (some (applyUpdate cfg args)) }
    | _ => L
  | Action.close => { L with primary := none }
  | Action.initializeDependent =>
    { primary :=
        match L.primary with
        | some (some cfg) => some (some { cfg with arkhamTokenMint := env.mintPda })
        | p => p
      accounts := setAccount L.accounts env.mintPda }

/-- The outcome of executing a list of actions: the resulting ledger,
the trace of submission attempts (action, confirmed?), and whether all
submissions were confirmed. -/
structure PassResult where
  ledger : Ledger
  trace : List (Action × Bool)
  ok : Bool

/-- Sequential execution: submit each action in order, apply its effect
on confirmation, and stop at the first failed submission. -/
def execPlan (env : RunEnv) : Ledger → List Action → PassResult
  | L, [] => ⟨L, [], true⟩
  | L, a :: rest =>
    if env.submitOk a then
      let r := execPlan env (applyAction env L a) rest
      ⟨r.ledger, (a, true) :: r.trace, r.ok⟩
    else ⟨L, [(a, false)], false⟩

/-- Step 4 of `main` against a ledger: probe, decide, execute. -/
def primaryPass (env : RunEnv) (L0 : Ledger) : PassResult :=
  execPlan env L0
    (decidePrimary env.desired L0.primary.isSome (primaryFetch L0) env.authority)

/-- The `mintIsInitialized` condition of `main`: the config's
`arkhamTokenMint` link is a non-null identity. -/
def mintIsInitialized (cfg : ProtocolConfig) : Bool :=
  cfg.arkhamTokenMint != nullKey

/-- The three outcomes of step 5 of `main`. -/
inductive MintStatus where
  | alreadyInitialized (mint : PubKey)
  | existsButUnlinked
  | needsInitialize
deriving DecidableEq, Repr

/-- Step 5 of `main`: if the link is set, report the mint as already
initialized; otherwise, if an account already exists at the mint PDA,
flag it for manual intervention; otherwise initialize the mint. -/
def mintGate (cfg : ProtocolConfig) (mintAccountExists : Bool) : MintStatus :=
  if mintIsInitialized cfg then MintStatus.alreadyInitialized cfg.arkhamTokenMint
  else if mintAccountExists then MintStatus.existsButUnlinked
  else MintStatus.needsInitialize

/-- The dependent-resource pass of `main`: re-fetch the config; a
missing or undecodable config is a thrown fatal error; otherwise the
mint gate decides the (empty or one-action) dependent plan. -/
def mintPass (env : RunEnv) (L1 : Ledger) : Except Unit (List Action) :=
  match primaryFetch L1 with
  | none => Except.error ()
  | some cfg =>
    match mintGate cfg (L1.accounts env.mintPda) with
    | MintStatus.needsInitialize => Except.ok [Action.initializeDependent]
    | _ => Except.ok []

/-- The result of one whole invocation of the script: the process exit
code, the final ledger, the trace of submission attempts, and whether a
diagnostic was written to the error stream by the top-level catch. -/
structure RunResult where
  exitCode : Nat
  ledger : Ledger
  submitted : List (Action × Bool)
  errDiag : Bool

/-- One whole invocation of `main` wrapped in the script's
`.then(exit 0)/.catch(log; exit 1)` entry point. -/
def runScript (env : RunEnv) (L0 : Ledger) : RunResult :=
  let p := primaryPass env L0
  if p.ok = false then ⟨1, p.ledger, p.trace, true⟩
  else
    match mintPass env p.ledger with
    | Except.error _ => ⟨1, p.ledger, p.trace, true⟩
    | Except.ok plan2 =>
      let q := execPlan env p.ledger plan2
      if q.ok then ⟨0, q.ledger, p.trace ++ q.trace, false⟩
      else ⟨1, q.ledger, p.trace ++ q.trace, true⟩

/-- When every submission is confirmed, sequential execution applies
every action in order. -/
theorem execPlan_allOk (env : RunEnv) (hall : ∀ a, env.submitOk a = true) :
    ∀ (plan : List Action) (L : Ledger),
      execPlan env L plan =
        ⟨List.foldl (applyAction env) L plan, plan.map (fun a => (a, true)), true⟩ := by
  intro plan
  induction plan with
  | nil => intro L; rfl
  | cons a rest ih => intro L; simp [execPlan, hall a, ih]

/-- Every submission attempt in an execution trace comes from the
executed plan. -/
theorem execPlan_trace_mem (env : RunEnv) :
    ∀ (plan : List Action) (L : Ledger) (p : Action × Bool),
      p ∈ (execPlan env L plan).trace → p.1 ∈ plan := by
  intro plan
  induction plan with
  | nil => intro L p hp; simp [execPlan] at hp
  | cons a rest ih =>
    intro L p hp
    by_cases hs : env.submitOk a = true
    · simp [execPlan, hs] at hp
      rcases hp with hp | hp
      · simp [hp]
      · exact List.mem_cons_of_mem a (ih _ p hp)
    · have hs' : env.submitOk a = false := by simpa using hs
      simp [execPlan, hs'] at hp
      simp [hp]

/-- The primary decision never plans a dependent-resource action. -/
theorem initializeDependent_not_primary (d : DesiredSpec) (physExists : Bool)
    (existingConfig : Option ProtocolConfig) (auth : PubKey) :
    Action.initializeDependent ∉ decidePrimary d physExists existingConfig auth := by
  cases physExists <;> cases existingConfig <;> simp [decidePrimary]

/-- A ledger state on which a run has nothing left to do: the config is
present, decodable, with a settled oracle authority, and the mint is
either linked or its PDA is occupied. -/
def steadyFor (env : RunEnv) (L : Ledger) : Prop :=
  ∃ cfg, L.primary = some (some cfg) ∧
    needsOracleUpdate cfg env.desired = false ∧
    (mintIsInitialized cfg = true ∨ L.accounts env.mintPda = true)

/-- On a steady ledger a run submits nothing, leaves the ledger
unchanged and exits 0. -/
theorem runScript_steady (env : RunEnv) (L : Ledger) (h : steadyFor env L) :
    runScript env L = ⟨0, L, [], false⟩ := by
  obtain ⟨cfg, hp, ho, hm⟩ := h
  have hfetch : primaryFetch L = some cfg := by
    simp [primaryFetch, primaryFetchOutcome, fetchProtocolConfig, hp]
  have hplan : decidePrimary env.desired L.primary.isSome (primaryFetch L) env.authority = [] := by
    simp [decidePrimary, hp, hfetch, ho]
  have hpass : primaryPass env L = ⟨L, [], true⟩ := by
    simp [primaryPass, hplan, execPlan]
  have hgate : mintPass env L = Except.ok [] := by
    rcases hm with hm | hm
    · simp [mintPass, hfetch, mintGate, hm]
    · cases hmi : mintIsInitialized cfg
      · simp [mintPass, hfetch, mintGate, hmi, hm]
      · simp [mintPass, hfetch, mintGate, hmi]
  simp [runScript, hpass, hgate, execPlan]

/-- A successfully completed primary pass leaves a decodable config
whose oracle authority equals the desired one. -/
theorem primaryPass_ok_oracle (env : RunEnv) (L0 : Ledger)
    (hok : (primaryPass env L0).ok = true) :
    ∃ cfg, (primaryPass env L0).ledger.primary = some (some cfg) ∧
      cfg.oracleAuthority = some env.desired.oracleAuthority := by
  rcases hL : L0.primary with _ | ocfg
  · have hfetch : primaryFetch L0 = none := by
      simp [primaryFetch, primaryFetchOutcome, fetchProtocolConfig, hL]
    have hplan : decidePrimary env.desired L0.primary.isSome (primaryFetch L0) env.authority =
        [Action.initializeConfig env.desired env.authority] := by
      simp [decidePrimary, hL, hfetch]
    by_cases hs : env.submitOk (Action.initializeConfig env.desired env.authority) = true
    · refine ⟨initConfig env.desired env.authority env.authority, ?_, rfl⟩
      simp [primaryPass, hplan, execPlan, hs, applyAction]
    · have hs' : env.submitOk (Action.initializeConfig env.desired env.authority) = false := by
        simpa using hs
      exfalso
      rw [primaryPass, hplan] at hok
      simp [execPlan, hs'] at hok
  · rcases ocfg with _ | cfg
    · have hfetch : primaryFetch L0 = none := by
        simp [primaryFetch, primaryFetchOutcome, fetchProtocolConfig, hL]
      have hplan : decidePrimary env.desired L0.primary.isSome (primaryFetch L0) env.authority =
          [Action.close, Action.initializeConfig env.desired env.authority] := by
        simp [decidePrimary, hL, hfetch]
      by_cases hc : env.submitOk Action.close = true
      · by_cases hs : env.submitOk (Action.initializeConfig env.desired env.authority) = true
        · refine ⟨initConfig env.desired env.authority env.authority, ?_, rfl⟩
          simp [primaryPass, hplan, execPlan, hc, hs, applyAction]
        · have hs' : env.submitOk (Action.initializeConfig env.desired env.authority) = false := by
            simpa using hs
          exfalso
          rw [primaryPass, hplan] at hok
          simp [execPlan, hc, hs'] at hok
      · have hc' : env.submitOk Action.close = false := by simpa using hc
        exfalso
        rw [primaryPass, hplan] at hok
        simp [execPlan, hc'] at hok
    · have hfetch : primaryFetch L0 = some cfg := by
        simp [primaryFetch, primaryFetchOutcome, fetchProtocolConfig, hL]
      by_cases hno : needsOracleUpdate cfg env.desired = true
      · have hplan : decidePrimary env.desired L0.primary.isSome (primaryFetch L0) env.authority =
            [Action.update (updateProtocolConfigArgs env.desired)] := by
          simp [decidePrimary, hL, hfetch, hno]
        by_cases hs : env.submitOk (Action.update (updateProtocolConfigArgs env.desired)) = true
        · refine ⟨applyUpdate cfg (updateProtocolConfigArgs env.desired), ?_, ?_⟩
          · rw [primaryPass, hplan]
            simp [execPlan, hs, applyAction, hL]
          · simp [applyUpdate, updateProtocolConfigArgs]
        · have hs' : env.submitOk (Action.update (updateProtocolConfigArgs env.desired)) = false := by
            simpa using hs
          exfalso
          rw [primaryPass, hplan] at hok
          simp [execPlan, hs'] at hok
      · have hno' : needsOracleUpdate cfg env.desired = false := by simpa using hno
        have hplan : decidePrimary env.desired L0.primary.isSome (primaryFetch L0) env.authority =
            [] := by
          simp [decidePrimary, hL, hfetch, hno']
        refine ⟨cfg, ?_, ?_⟩
        · rw [primaryPass, hplan]
          simpa [execPlan] using hL
        · revert hno'
          simp only [needsOracleUpdate]
          rcases cfg.oracleAuthority with _ | o
          · intro h; exact absurd h (by simp)
          · intro h
            have : (o != env.desired.oracleAuthority) = false := by
              rcases Bool.or_eq_false_iff.mp h with ⟨_, h2⟩
              exact h2
            simpa using congrArg (some ·) (by simpa using this)

/-- If the primary pass completed with a settled config, the whole run
ends on a steady ledger. -/
theorem runScript_steady_of_pass (env : RunEnv) (hall : ∀ a, env.submitOk a = true)
    (L0 L1 : Ledger) (tr : List (Action × Bool)) (cfg : ProtocolConfig)
    (hpass : primaryPass env L0 = ⟨L1, tr, true⟩)
    (hp1 : L1.primary = some (some cfg))
    (hno : needsOracleUpdate cfg env.desired = false) :
    steadyFor env (runScript env L0).ledger := by
  have hfetch : primaryFetch L1 = some cfg := by
    simp [primaryFetch, primaryFetchOutcome, fetchProtocolConfig, hp1]
  by_cases hmi : mintIsInitialized cfg = true
  · have hmp : mintPass env L1 = Except.ok [] := by simp [mintPass, hfetch, mintGate, hmi]
    have hrun : runScript env L0 = ⟨0, L1, tr ++ [], false⟩ := by
      simp [runScript, hpass, hmp, execPlan]
    rw [hrun]
    exact ⟨cfg, hp1, hno, Or.inl hmi⟩
  · have hmi' : mintIsInitialized cfg = false := by simpa using hmi
    by_cases hacc : L1.accounts env.mintPda = true
    · have hmp : mintPass env L1 = Except.ok [] := by
        simp [mintPass, hfetch, mintGate, hmi', hacc]
      have hrun : runScript env L0 = ⟨0, L1, tr ++ [], false⟩ := by
        simp [runScript, hpass, hmp, execPlan]
      rw [hrun]
      exact ⟨cfg, hp1, hno, Or.inr hacc⟩
    · have hacc' : L1.accounts env.mintPda = false := by simpa using hacc
      have hmp : mintPass env L1 = Except.ok [Action.initializeDependent] := by
        simp [mintPass, hfetch, mintGate, hmi', hacc']
      have hq : execPlan env L1 [Action.initializeDependent] =
          ⟨applyAction env L1 Action.initializeDependent,
            [(Action.initializeDependent, true)], true⟩ := by
        simp [execPlan, hall]
      have hrun : runScript env L0 =
          ⟨0, applyAction env L1 Action.initializeDependent,
            tr ++ [(Action.initializeDependent, true)], false⟩ := by
        simp [runScript, hpass, hmp, hq]
      rw [hrun]
      refine ⟨{ cfg with arkhamTokenMint := env.mintPda }, ?_, ?_, Or.inr ?_⟩
      · simp [applyAction, hp1]
      · simpa [needsOracleUpdate] using hno
      · simp [applyAction, setAccount]

/-- Any run whose submissions are all confirmed, for a desired spec
with a non-null oracle authority, ends on a steady ledger. -/
theorem runScript_establishes_steady (env : RunEnv)
    (hall : ∀ a, env.submitOk a = true)
    (hnn : env.desired.oracleAuthority ≠ nullKey) (L0 : Ledger) :
    steadyFor env (runScript env L0).ledger := by
  have hnn0 : (env.desired.oracleAuthority == 0) = false :=
    beq_eq_false_iff_ne.mpr (by simpa [nullKey] using hnn)
  have hno_init :
      needsOracleUpdate (initConfig env.desired env.authority env.authority) env.desired =
        false := by
    simp [needsOracleUpdate, initConfig, hnn0, hnn]
  rcases hL : L0.primary with _ | ocfg
  · have hfetch : primaryFetch L0 = none := by
      simp [primaryFetch, primaryFetchOutcome, fetchProtocolConfig, hL]
    have hplan : decidePrimary env.desired L0.primary.isSome (primaryFetch L0) env.authority =
        [Action.initializeConfig env.desired env.authority] := by
      simp [decidePrimary, hL, hfetch]
    have hpass : primaryPass env L0 =
        ⟨applyAction env L0 (Action.initializeConfig env.desired env.authority),
          [(Action.initializeConfig env.desired env.authority, true)], true⟩ := by
      rw [primaryPass, hplan]
      simp [execPlan, hall]
    exact runScript_steady_of_pass env hall L0 _ _
      (initConfig env.desired env.authority env.authority) hpass (by simp [applyAction]) hno_init
  · rcases ocfg with _ | cfg
    · have hfetch : primaryFetch L0 = none := by
        simp [primaryFetch, primaryFetchOutcome, fetchProtocolConfig, hL]
      have hplan : decidePrimary env.desired L0.primary.isSome (primaryFetch L0) env.authority =
          [Action.close, Action.initializeConfig env.desired env.authority] := by
        simp [decidePrimary, hL, hfetch]
      have hpass : primaryPass env L0 =
          ⟨applyAction env (applyAction env L0 Action.close)
              (Action.initializeConfig env.desired env.authority),
            [(Action.close, true), (Action.initializeConfig env.desired env.authority, true)],
            true⟩ := by
        rw [primaryPass, hplan]
        simp [execPlan, hall]
      exact runScript_steady_of_pass env hall L0 _ _
        (initConfig env.desired env.authority env.authority) hpass (by simp [applyAction])
        hno_init
    · have hfetch : primaryFetch L0 = some cfg := by
        simp [primaryFetch, primaryFetchOutcome, fetchProtocolConfig, hL]
      by_cases hno : needsOracleUpdate cfg env.desired = true
      · have hplan : decidePrimary env.desired L0.primary.isSome (primaryFetch L0)
            env.authority = [Action.update (updateProtocolConfigArgs env.desired)] := by
          simp [decidePrimary, hL, hfetch, hno]
        have hpass : primaryPass env L0 =
            ⟨applyAction env L0 (Action.update (updateProtocolConfigArgs env.desired)),
              [(Action.update (updateProtocolConfigArgs env.desired), true)], true⟩ := by
          rw [primaryPass, hplan]
          simp [execPlan, hall]
        refine runScript_steady_of_pass env hall L0 _ _
          (applyUpdate cfg (updateProtocolConfigArgs env.desired)) hpass ?_ ?_
        · simp [applyAction, hL]
        · simp [needsOracleUpdate, applyUpdate, updateProtocolConfigArgs, hnn0, hnn]
      · have hno' : needsOracleUpdate cfg env.desired = false := by simpa using hno
        have hplan : decidePrimary env.desired L0.primary.isSome (primaryFetch L0)
            env.authority = [] := by
          simp [decidePrimary, hL, hfetch, hno']
        have hpass : primaryPass env L0 = ⟨L0, [], true⟩ := by
          rw [primaryPass, hplan]
          simp [execPlan]
        exact runScript_steady_of_pass env hall L0 _ _ cfg hpass hL hno'

/-- C1 counterexample: the claimed decision table requires an
`Update(onlyChangedFields)` plan whenever a Compatible account differs
from the desired spec in any field; but for an observed account that
matches `CONFIG_PARAMS` except for a different protocol fee (and whose
oracle authority equals the desired one), the script produces the empty
plan — the fee difference is never inspected. -/
theorem decision_ignores_fee_counterexample :
    ({ initConfig CONFIG_PARAMS 7 7 with protocolFeeBps := 250 } : ProtocolConfig).protocolFeeBps ≠
      CONFIG_PARAMS.protocolFeeBps ∧
    decidePrimary CONFIG_PARAMS true
      (some { initConfig CONFIG_PARAMS 7 7 with protocolFeeBps := 250 }) 7 = [] := by
  decide

/-- C1 amended: the decision table the script actually implements:
Absent yields `[Initialize]`; Incompatible yields `[Close, Initialize]`;
Compatible yields the empty plan when the stored oracle authority is
present, non-null and equal to the desired one, and otherwise yields a
single `Update` that re-sends every configuration field (with only the
reputation updater as "no change"). -/
theorem decidePrimary_decision_table (d : DesiredSpec) (auth : PubKey)
    (physExists : Bool) (existingConfig : Option ProtocolConfig) :
    decidePrimary d physExists existingConfig auth =
      match classify physExists existingConfig with
      | ObservedState.absent => [Action.initializeConfig d auth]
      | ObservedState.incompatible => [Action.close, Action.initializeConfig d auth]
      | ObservedState.compatible cfg =>
        if needsOracleUpdate cfg d then [Action.update (updateProtocolConfigArgs d)]
        else [] := by
  cases physExists <;> cases existingConfig <;> simp [decidePrimary, classify]

/-- C2 counterexample: for two desired specs that differ only in the
protocol fee, with the observed account equal to the first spec, the
script produces no `Update` action at all (the plan is empty), rather
than an `Update` whose delta carries exactly the changed fee. -/
theorem update_delta_counterexample :
    ({ CONFIG_PARAMS with protocolFeeBps := 250 } : DesiredSpec).protocolFeeBps ≠
      CONFIG_PARAMS.protocolFeeBps ∧
    decidePrimary { CONFIG_PARAMS with protocolFeeBps := 250 } true
      (some (initConfig CONFIG_PARAMS 7 7)) 7 = [] := by
  decide

/-- C2 amended: when two desired specs differ only in the protocol fee
and the observed account's oracle authority equals the (shared,
non-null) desired oracle authority, the script issues no `Update` at
all — the update trigger inspects only the oracle-authority field; and
whenever an `Update` is issued, its argument list re-sends every
configuration field from the desired spec, with only the reputation
updater encoded as "no change". -/
theorem feeOnly_change_no_update (d1 d2 : DesiredSpec) (obs : ProtocolConfig) (auth : PubKey)
    (hfee : d2 = { d1 with protocolFeeBps := d2.protocolFeeBps })
    (hobs : obs.oracleAuthority = some d1.oracleAuthority)
    (hnn : d1.oracleAuthority ≠ nullKey) :
    decidePrimary d2 true (some obs) auth = [] ∧
    (updateProtocolConfigArgs d2).reputationUpdater = none ∧
    (updateProtocolConfigArgs d2).baseRatePerMb = some d2.baseRatePerMb ∧
    (updateProtocolConfigArgs d2).protocolFeeBps = some d2.protocolFeeBps ∧
    (updateProtocolConfigArgs d2).tierThresholds = some d2.tierThresholds ∧
    (updateProtocolConfigArgs d2).tierMultipliers = some d2.tierMultipliers ∧
    (updateProtocolConfigArgs d2).tokensPer5gb = some d2.tokensPer5gb ∧
    (updateProtocolConfigArgs d2).geoPremiums = some d2.geoPremiums ∧
    (updateProtocolConfigArgs d2).oracleAuthority = some d2.oracleAuthority := by
  have horacle : d2.oracleAuthority = d1.oracleAuthority := by rw [hfee]
  have hnn0 : ¬d1.oracleAuthority = 0 := by simpa [nullKey] using hnn
  refine ⟨?_, rfl, rfl, rfl, rfl, rfl, rfl, rfl, rfl⟩
  simp [decidePrimary, needsOracleUpdate, hobs, horacle, hnn0, hnn]

/-- C2 witness: the amended statement instantiated at `CONFIG_PARAMS`
and a fee-only variant of it. -/
theorem feeOnly_change_no_update_witness :
    decidePrimary { CONFIG_PARAMS with protocolFeeBps := 250 } true
      (some (initConfig CONFIG_PARAMS 7 7)) 7 = [] ∧
    (updateProtocolConfigArgs { CONFIG_PARAMS with protocolFeeBps := 250 }).reputationUpdater =
      none :=
  ⟨(feeOnly_change_no_update CONFIG_PARAMS { CONFIG_PARAMS with protocolFeeBps := 250 }
      (initConfig CONFIG_PARAMS 7 7) 7 (by decide) (by decide) (by decide)).1,
   (feeOnly_change_no_update CONFIG_PARAMS { CONFIG_PARAMS with protocolFeeBps := 250 }
      (initConfig CONFIG_PARAMS 7 7) 7 (by decide) (by decide) (by decide)).2.1⟩

/-- C6: decoding stored bytes is total: every byte input either decodes
to a configuration (and the probe reports it Compatible) or yields a
decode error that `fetchProtocolConfig` turns into `null`, which the
decision procedure classifies as the Incompatible migration plan
`[Close, Initialize]` — never a propagated fault; in particular any
input not starting with the expected discriminant fails with
`badDiscriminant`. -/
theorem decode_total_classification (d : DesiredSpec) (auth : PubKey) (bytes : List Nat) :
    ((∃ cfg, decodeProtocolConfig bytes = Except.ok cfg ∧
        fetchProtocolConfig (decodeProtocolConfig bytes) = some cfg) ∨
      (∃ f, decodeProtocolConfig bytes = Except.error f ∧
        fetchProtocolConfig (decodeProtocolConfig bytes) = none ∧
        decidePrimary d true (fetchProtocolConfig (decodeProtocolConfig bytes)) auth =
          [Action.close, Action.initializeConfig d auth])) ∧
    (bytes.take 8 ≠ CONFIG_DISCRIMINANT →
      decodeProtocolConfig bytes = Except.error DecodeFailure.badDiscriminant) := by
  constructor
  · cases h : decodeProtocolConfig bytes with
    | ok cfg =>
      exact Or.inl ⟨cfg, rfl, by simp [fetchProtocolConfig, h]⟩
    | error f =>
      refine Or.inr ⟨f, rfl, by simp [fetchProtocolConfig, h], ?_⟩
      simp [fetchProtocolConfig, h, decidePrimary]
  · intro h
    simp only [decodeProtocolConfig, if_pos h]

/-- C6 witness: the classification instantiated at the empty byte
string, which fails the discriminant check. -/
theorem decode_total_classification_witness :
    decodeProtocolConfig [] = Except.error DecodeFailure.badDiscriminant :=
  (decode_total_classification CONFIG_PARAMS 7 []).2 (by decide)

/-- C9: a faulted raw existence probe is swallowed: `getAccountInfo`
returns the same `null` as for a genuinely missing account,
`accountExists` returns `false`, and the decision procedure therefore
classifies the resource as Absent and plans `[Initialize]` instead of
surfacing a transient error. -/
theorem probe_fault_as_absent {ε ε' : Type} (e : ε) (e' : ε')
    (d : DesiredSpec) (auth : PubKey) :
    getAccountInfo (Except.error e : Except ε (Option (List Nat))) =
      getAccountInfo (Except.ok none : Except ε (Option (List Nat))) ∧
    accountExists (Except.error e : Except ε (Option (List Nat))) = false ∧
    decidePrimary d
      (getAccountInfo (Except.error e : Except ε (Option (List Nat)))).isSome
      (fetchProtocolConfig (Except.error e' : Except ε' ProtocolConfig)) auth =
      [Action.initializeConfig d auth] := by
  exact ⟨rfl, rfl, rfl⟩

/-- A run environment with the script's parameters and every
submission confirmed. -/
def plainEnv : RunEnv := ⟨CONFIG_PARAMS, 7, 3, fun _ => true⟩

/-- A run environment in which the `close` submission is rejected and
every other submission is confirmed. -/
def failCloseEnv : RunEnv :=
  ⟨CONFIG_PARAMS, 7, 3, fun a => match a with | Action.close => false | _ => true⟩

/-- A config matching `CONFIG_PARAMS` whose dependent link is set to
address 5. -/
def linkedCfg : ProtocolConfig := { initConfig CONFIG_PARAMS 7 7 with arkhamTokenMint := 5 }

/-- A ledger whose config links a dependent mint at address 5 while no
account exists anywhere else — in particular the linked address is
absent. -/
def staleLedger : Ledger := ⟨some (some linkedCfg), fun _ => false⟩

/-- C3 counterexample: for the desired spec whose oracle authority is
the null identity, a completed first run starting from an absent
account does not make the second run empty — the second run submits an
update again, because the stored null oracle authority always re-fires
the update trigger. -/
theorem idempotence_counterexample :
    ({ CONFIG_PARAMS with oracleAuthority := nullKey } : DesiredSpec).oracleAuthority =
      nullKey ∧
    (runScript ⟨{ CONFIG_PARAMS with oracleAuthority := nullKey }, 7, 3, fun _ => true⟩
        (runScript ⟨{ CONFIG_PARAMS with oracleAuthority := nullKey }, 7, 3, fun _ => true⟩
          ⟨none, fun _ => false⟩).ledger).submitted ≠ [] := by
  decide

/-- C3 amended: for every desired spec whose oracle authority is not
the null identity and every initial ledger, a run with all submissions
confirmed followed by a second run with the same spec makes the second
run submit nothing at all (empty primary plan and no dependent
action). -/
theorem second_run_empty (env : RunEnv) (L0 : Ledger)
    (hall : ∀ a, env.submitOk a = true)
    (hnn : env.desired.oracleAuthority ≠ nullKey) :
    (runScript env (runScript env L0).ledger).submitted = [] := by
  rw [runScript_steady env _ (runScript_establishes_steady env hall hnn L0)]

/-- C3 witness: the amended idempotence instantiated at the script's
parameters and an initially absent account. -/
theorem second_run_empty_witness :
    (runScript plainEnv (runScript plainEnv ⟨none, fun _ => false⟩).ledger).submitted = [] :=
  second_run_empty plainEnv ⟨none, fun _ => false⟩ (fun _ => rfl) (by decide)

/-- C4 counterexample: with a Compatible config whose dependent link
holds the non-null address 5 while that address is absent on the
ledger, the run reports nothing: it exits 0 with no error diagnostic
and zero submissions, instead of returning a distinct stale-link error
kind. -/
theorem stale_link_counterexample :
    linkedCfg.arkhamTokenMint ≠ nullKey ∧
    staleLedger.accounts linkedCfg.arkhamTokenMint = false ∧
    (runScript plainEnv staleLedger).exitCode = 0 ∧
    (runScript plainEnv staleLedger).submitted = [] ∧
    (runScript plainEnv staleLedger).errDiag = false := by
  decide

/-- C4 amended: whenever the primary config is Compatible with a
settled oracle authority and a non-null dependent link, the run treats
the mint as already provisioned without probing the linked address at
all: for every existence map it submits nothing, exits 0 with no
error, and the gate returns the healthy already-initialized status. -/
theorem nonNullLink_skips (env : RunEnv) (L0 : Ledger) (cfg : ProtocolConfig)
    (hp : L0.primary = some (some cfg))
    (hno : needsOracleUpdate cfg env.desired = false)
    (hmi : mintIsInitialized cfg = true) :
    runScript env L0 = ⟨0, L0, [], false⟩ ∧
    mintGate cfg (L0.accounts env.mintPda) =
      MintStatus.alreadyInitialized cfg.arkhamTokenMint := by
  refine ⟨runScript_steady env L0 ⟨cfg, hp, hno, Or.inl hmi⟩, ?_⟩
  simp [mintGate, hmi]

/-- C4 witness: the amended statement instantiated at the ledger whose
link points to the absent address 5. -/
theorem nonNullLink_skips_witness :
    runScript plainEnv staleLedger = ⟨0, staleLedger, [], false⟩ :=
  (nonNullLink_skips plainEnv staleLedger linkedCfg rfl (by decide) (by decide)).1

/-- C5: for an Incompatible (present but undecodable) account, the plan
is `[Close, Initialize]`; if the `Close` submission fails, the run's
submission trace is exactly the failed `Close` — the `Initialize`
action is never submitted — and the run exits 1 with a diagnostic. -/
theorem close_failure_stops (env : RunEnv) (L0 : Ledger)
    (hinc : L0.primary = some none)
    (hfail : env.submitOk Action.close = false) :
    (runScript env L0).submitted = [(Action.close, false)] ∧
    (runScript env L0).exitCode = 1 ∧
    (runScript env L0).errDiag = true := by
  have hfetch : primaryFetch L0 = none := by
    simp [primaryFetch, primaryFetchOutcome, fetchProtocolConfig, hinc]
  have hplan : decidePrimary env.desired L0.primary.isSome (primaryFetch L0) env.authority =
      [Action.close, Action.initializeConfig env.desired env.authority] := by
    simp [decidePrimary, hinc, hfetch]
  have hpass : primaryPass env L0 = ⟨L0, [(Action.close, false)], false⟩ := by
    rw [primaryPass, hplan]
    simp [execPlan, hfail]
  simp [runScript, hpass]

/-- C5 witness: the stopped execution instantiated at an undecodable
account with a rejected close. -/
theorem close_failure_stops_witness :
    (runScript failCloseEnv ⟨some none, fun _ => false⟩).submitted =
      [(Action.close, false)] ∧
    (runScript failCloseEnv ⟨some none, fun _ => false⟩).exitCode = 1 :=
  ⟨(close_failure_stops failCloseEnv ⟨some none, fun _ => false⟩ rfl rfl).1,
   (close_failure_stops failCloseEnv ⟨some none, fun _ => false⟩ rfl rfl).2.1⟩

/-- No dependent-resource action ever appears in the primary pass
trace. -/
theorem dep_not_in_primary_trace (env : RunEnv) (L0 : Ledger) :
    Action.initializeDependent ∉ (primaryPass env L0).trace.map Prod.fst := by
  intro hmem
  obtain ⟨p, hp, hfst⟩ := List.mem_map.mp hmem
  rw [primaryPass] at hp
  have h1 := execPlan_trace_mem env _ L0 p hp
  rw [hfst] at h1
  exact initializeDependent_not_primary _ _ _ _ h1

/-- A mint-pass plan containing the dependent action implies the
re-probed config was Compatible. -/
theorem mintPass_ok_dep (env : RunEnv) (L : Ledger) (plan2 : List Action)
    (hmp : mintPass env L = Except.ok plan2)
    (_hmem : Action.initializeDependent ∈ plan2) :
    ∃ cfg, primaryFetch L = some cfg := by
  cases hf : primaryFetch L with
  | none => simp [mintPass, hf] at hmp
  | some cfg => exact ⟨cfg, rfl⟩

/-- C7: if the re-probe of the primary config before the dependent
pass does not yield a decodable config, the pass is a thrown fatal
error; a dependent-initialization action can only be planned when the
re-probe yields a config; and in every whole run, a submitted
dependent-initialization action implies the post-primary re-probe was
Compatible. -/
theorem dependent_gate_requires_compatible (env : RunEnv) (L1 : Ledger) :
    (primaryFetch L1 = none → mintPass env L1 = Except.error ()) ∧
    (∀ plan2, mintPass env L1 = Except.ok plan2 →
      Action.initializeDependent ∈ plan2 → ∃ cfg, primaryFetch L1 = some cfg) ∧
    (∀ L0, Action.initializeDependent ∈ (runScript env L0).submitted.map Prod.fst →
      ∃ cfg, primaryFetch (primaryPass env L0).ledger = some cfg) := by
  refine ⟨?_, ?_, ?_⟩
  · intro h
    simp [mintPass, h]
  · intro plan2 hmp hmem
    exact mintPass_ok_dep env L1 plan2 hmp hmem
  · intro L0 hmem
    by_cases hok : (primaryPass env L0).ok = true
    · cases hmp : mintPass env (primaryPass env L0).ledger with
      | error e =>
        cases e
        have hrun : runScript env L0 =
            ⟨1, (primaryPass env L0).ledger, (primaryPass env L0).trace, true⟩ := by
          simp [runScript, hok, hmp]
        rw [hrun] at hmem
        exact absurd hmem (dep_not_in_primary_trace env L0)
      | ok plan2 =>
        by_cases hq : (execPlan env (primaryPass env L0).ledger plan2).ok = true
        · have hrun : runScript env L0 =
              ⟨0, (execPlan env (primaryPass env L0).ledger plan2).ledger,
                (primaryPass env L0).trace ++
                  (execPlan env (primaryPass env L0).ledger plan2).trace, false⟩ := by
            simp [runScript, hok, hmp, hq]
          rw [hrun] at hmem
          simp only [List.map_append, List.mem_append] at hmem
          rcases hmem with hmem | hmem
          · exact absurd hmem (dep_not_in_primary_trace env L0)
          · obtain ⟨p, hp, hfst⟩ := List.mem_map.mp hmem
            have h1 := execPlan_trace_mem env plan2 (primaryPass env L0).ledger p hp
            rw [hfst] at h1
            exact mintPass_ok_dep env _ plan2 hmp h1
        · have hq' : (execPlan env (primaryPass env L0).ledger plan2).ok = false := by
            simpa using hq
          have hrun : runScript env L0 =
              ⟨1, (execPlan env (primaryPass env L0).ledger plan2).ledger,
                (primaryPass env L0).trace ++
                  (execPlan env (primaryPass env L0).ledger plan2).trace, true⟩ := by
            simp [runScript, hok, hmp, hq']
          rw [hrun] at hmem
          simp only [List.map_append, List.mem_append] at hmem
          rcases hmem with hmem | hmem
          · exact absurd hmem (dep_not_in_primary_trace env L0)
          · obtain ⟨p, hp, hfst⟩ := List.mem_map.mp hmem
            have h1 := execPlan_trace_mem env plan2 (primaryPass env L0).ledger p hp
            rw [hfst] at h1
            exact mintPass_ok_dep env _ plan2 hmp h1
    · have hok' : (primaryPass env L0).ok = false := by simpa using hok
      have hrun : runScript env L0 =
          ⟨1, (primaryPass env L0).ledger, (primaryPass env L0).trace, true⟩ := by
        simp [runScript, hok']
      rw [hrun] at hmem
      exact absurd hmem (dep_not_in_primary_trace env L0)

/-- C7 witness: the fatal branch of the gate instantiated at an absent
account. -/
theorem dependent_gate_requires_compatible_witness :
    mintPass plainEnv ⟨none, fun _ => false⟩ = Except.error () :=
  (dependent_gate_requires_compatible plainEnv ⟨none, fun _ => false⟩).1 rfl

/-- A config matching `CONFIG_PARAMS` except for the protocol fee,
with a linked mint. -/
def mismatchCfg : ProtocolConfig :=
  { initConfig CONFIG_PARAMS 7 7 with protocolFeeBps := 999, arkhamTokenMint := 5 }

/-- A ledger holding the fee-mismatched config. -/
def mismatchLedger : Ledger := ⟨some (some mismatchCfg), fun _ => false⟩

/-- C8 counterexample: the run exits 0 even though the final config
does not match the desired spec — its protocol fee still differs from
the desired one, because only the oracle authority is reconciled. -/
theorem exit_zero_mismatch_counterexample :
    plainEnv.desired = CONFIG_PARAMS ∧
    mismatchCfg.protocolFeeBps ≠ CONFIG_PARAMS.protocolFeeBps ∧
    (runScript plainEnv mismatchLedger).exitCode = 0 ∧
    primaryFetch (runScript plainEnv mismatchLedger).ledger = some mismatchCfg := by
  decide

/-- C8 amended: the process always exits 0 or 1; exit 1 always comes
with a diagnostic on the error stream; and exit 0 guarantees the final
primary config is Compatible with its oracle authority equal to the
desired one and the dependent mint linked, freshly initialized, or
physically present at the mint PDA — but not that every field matches
the desired spec. -/
theorem exit_code_characterization (env : RunEnv) (L0 : Ledger) :
    ((runScript env L0).exitCode = 0 ∨ (runScript env L0).exitCode = 1) ∧
    ((runScript env L0).exitCode = 1 → (runScript env L0).errDiag = true) ∧
    ((runScript env L0).exitCode = 0 →
      ∃ cfg, primaryFetch (runScript env L0).ledger = some cfg ∧
        cfg.oracleAuthority = some env.desired.oracleAuthority ∧
        (mintIsInitialized cfg = true ∨
          (runScript env L0).ledger.accounts env.mintPda = true)) := by
  by_cases hok : (primaryPass env L0).ok = true
  · obtain ⟨cfg, hcfg, horc⟩ := primaryPass_ok_oracle env L0 hok
    have hfetch : primaryFetch (primaryPass env L0).ledger = some cfg := by
      simp [primaryFetch, primaryFetchOutcome, fetchProtocolConfig, hcfg]
    by_cases hmi : mintIsInitialized cfg = true
    · have hmp : mintPass env (primaryPass env L0).ledger = Except.ok [] := by
        simp [mintPass, hfetch, mintGate, hmi]
      have hrun : runScript env L0 = ⟨0, (primaryPass env L0).ledger,
          (primaryPass env L0).trace ++ [], false⟩ := by
        simp [runScript, hok, hmp, execPlan]
      rw [hrun]
      exact ⟨Or.inl rfl, fun h => absurd h (by simp),
        fun _ => ⟨cfg, hfetch, horc, Or.inl hmi⟩⟩
    · have hmi' : mintIsInitialized cfg = false := by simpa using hmi
      by_cases hacc : (primaryPass env L0).ledger.accounts env.mintPda = true
      · have hmp : mintPass env (primaryPass env L0).ledger = Except.ok [] := by
          simp [mintPass, hfetch, mintGate, hmi', hacc]
        have hrun : runScript env L0 = ⟨0, (primaryPass env L0).ledger,
            (primaryPass env L0).trace ++ [], false⟩ := by
          simp [runScript, hok, hmp, execPlan]
        rw [hrun]
        exact ⟨Or.inl rfl, fun h => absurd h (by simp),
          fun _ => ⟨cfg, hfetch, horc, Or.inr hacc⟩⟩
      · have hacc' : (primaryPass env L0).ledger.accounts env.mintPda = false := by
          simpa using hacc
        have hmp : mintPass env (primaryPass env L0).ledger =
            Except.ok [Action.initializeDependent] := by
          simp [mintPass, hfetch, mintGate, hmi', hacc']
        by_cases hs : env.submitOk Action.initializeDependent = true
        · have hq : execPlan env (primaryPass env L0).ledger [Action.initializeDependent] =
              ⟨applyAction env (primaryPass env L0).ledger Action.initializeDependent,
                [(Action.initializeDependent, true)], true⟩ := by
            simp [execPlan, hs]
          have hrun : runScript env L0 =
              ⟨0, applyAction env (primaryPass env L0).ledger Action.initializeDependent,
                (primaryPass env L0).trace ++ [(Action.initializeDependent, true)],
                false⟩ := by
            simp [runScript, hok, hmp, hq]
          rw [hrun]
          refine ⟨Or.inl rfl, fun h => absurd h (by simp), fun _ =>
            ⟨{ cfg with arkhamTokenMint := env.mintPda }, ?_, horc, Or.inr ?_⟩⟩
          · simp [primaryFetch, primaryFetchOutcome, fetchProtocolConfig, applyAction, hcfg]
          · simp [applyAction, setAccount]
        · have hs' : env.submitOk Action.initializeDependent = false := by simpa using hs
          have hq : execPlan env (primaryPass env L0).ledger [Action.initializeDependent] =
              ⟨(primaryPass env L0).ledger, [(Action.initializeDependent, false)],
                false⟩ := by
            simp [execPlan, hs']
          have hrun : runScript env L0 =
              ⟨1, (primaryPass env L0).ledger,
                (primaryPass env L0).trace ++ [(Action.initializeDependent, false)],
                true⟩ := by
            simp [runScript, hok, hmp, hq]
          rw [hrun]
          exact ⟨Or.inr rfl, fun _ => rfl, fun h => absurd h (by simp)⟩
  · have hok' : (primaryPass env L0).ok = false := by simpa using hok
    have hrun : runScript env L0 =
        ⟨1, (primaryPass env L0).ledger, (primaryPass env L0).trace, true⟩ := by
      simp [runScript, hok']
    rw [hrun]
    exact ⟨Or.inr rfl, fun _ => rfl, fun h => absurd h (by simp)⟩

/-- C8 witness: the diagnostic guarantee at a failed close, and the
exit-0 guarantee at a healthy linked ledger. -/
theorem exit_code_characterization_witness :
    (runScript failCloseEnv ⟨some none, fun _ => false⟩).errDiag = true ∧
    ∃ cfg, primaryFetch (runScript plainEnv staleLedger).ledger = some cfg ∧
      cfg.oracleAuthority = some plainEnv.desired.oracleAuthority ∧
      (mintIsInitialized cfg = true ∨
        (runScript plainEnv staleLedger).ledger.accounts plainEnv.mintPda = true) :=
  ⟨(exit_code_characterization failCloseEnv ⟨some none, fun _ => false⟩).2.1 (by decide),
   (exit_code_characterization plainEnv staleLedger).2.2 (by decide)⟩

/-- C10: with a Compatible config whose dependent link is null while
an account already exists at the mint PDA, a run with all submissions
confirmed never submits the dependent initialization: the gate reports
the exists-but-unlinked condition for manual intervention, and the run
still completes with exit code 0 and no error diagnostic. -/
theorem unlinked_mint_manual (env : RunEnv) (L0 : Ledger) (cfg : ProtocolConfig)
    (hall : ∀ a, env.submitOk a = true)
    (hp : L0.primary = some (some cfg))
    (hmint : cfg.arkhamTokenMint = nullKey)
    (hacc : L0.accounts env.mintPda = true) :
    (runScript env L0).exitCode = 0 ∧
    (runScript env L0).errDiag = false ∧
    Action.initializeDependent ∉ (runScript env L0).submitted.map Prod.fst ∧
    ∃ cfg', primaryFetch (primaryPass env L0).ledger = some cfg' ∧
      mintGate cfg' ((primaryPass env L0).ledger.accounts env.mintPda) =
        MintStatus.existsButUnlinked := by
  have hfetch0 : primaryFetch L0 = some cfg := by
    simp [primaryFetch, primaryFetchOutcome, fetchProtocolConfig, hp]
  by_cases hno : needsOracleUpdate cfg env.desired = true
  · have hplan : decidePrimary env.desired L0.primary.isSome (primaryFetch L0)
        env.authority = [Action.update (updateProtocolConfigArgs env.desired)] := by
      simp [decidePrimary, hp, hfetch0, hno]
    have hpass : primaryPass env L0 =
        ⟨applyAction env L0 (Action.update (updateProtocolConfigArgs env.desired)),
          [(Action.update (updateProtocolConfigArgs env.desired), true)], true⟩ := by
      rw [primaryPass, hplan]
      simp [execPlan, hall]
    have hL1 : applyAction env L0 (Action.update (updateProtocolConfigArgs env.desired)) =
        { L0 with
            primary :=
              some (some (applyUpdate cfg (updateProtocolConfigArgs env.desired))) } := by
      simp [applyAction, hp]
    have hmint' : (applyUpdate cfg (updateProtocolConfigArgs env.desired)).arkhamTokenMint =
        nullKey := by
      simpa [applyUpdate] using hmint
    have hmi' : mintIsInitialized (applyUpdate cfg (updateProtocolConfigArgs env.desired)) =
        false := by
      simp [mintIsInitialized, hmint', nullKey]
    have hfetchU :
        primaryFetch (applyAction env L0 (Action.update (updateProtocolConfigArgs env.desired))) =
          some (applyUpdate cfg (updateProtocolConfigArgs env.desired)) := by
      rw [hL1]
      simp [primaryFetch, primaryFetchOutcome, fetchProtocolConfig]
    have haccU :
        (applyAction env L0
            (Action.update (updateProtocolConfigArgs env.desired))).accounts env.mintPda =
          true := by
      rw [hL1]
      exact hacc
    have hgateU : mintGate (applyUpdate cfg (updateProtocolConfigArgs env.desired))
        ((applyAction env L0
            (Action.update (updateProtocolConfigArgs env.desired))).accounts env.mintPda) =
        MintStatus.existsButUnlinked := by
      simp [mintGate, hmi', haccU]
    have hmpU :
        mintPass env (applyAction env L0 (Action.update (updateProtocolConfigArgs env.desired))) =
          Except.ok [] := by
      simp [mintPass, hfetchU, hgateU]
    have hrun : runScript env L0 =
        ⟨0, applyAction env L0 (Action.update (updateProtocolConfigArgs env.desired)),
          [(Action.update (updateProtocolConfigArgs env.desired), true)], false⟩ := by
      simp [runScript, hpass, hmpU, execPlan]
    rw [hrun, hpass]
    exact ⟨rfl, rfl, by simp,
      ⟨applyUpdate cfg (updateProtocolConfigArgs env.desired), hfetchU, hgateU⟩⟩
  · have hno' : needsOracleUpdate cfg env.desired = false := by simpa using hno
    have hplan : decidePrimary env.desired L0.primary.isSome (primaryFetch L0)
        env.authority = [] := by
      simp [decidePrimary, hp, hfetch0, hno']
    have hpass : primaryPass env L0 = ⟨L0, [], true⟩ := by
      rw [primaryPass, hplan]
      simp [execPlan]
    have hmi' : mintIsInitialized cfg = false := by
      simp [mintIsInitialized, hmint, nullKey]
    have hrun : runScript env L0 = ⟨0, L0, [], false⟩ :=
      runScript_steady env L0 ⟨cfg, hp, hno', Or.inr hacc⟩
    rw [hrun]
    refine ⟨rfl, rfl, by simp, ⟨cfg, ?_, ?_⟩⟩
    · rw [hpass]
      exact hfetch0
    · rw [hpass]
      simp [mintGate, hmi', hacc]

/-- A ledger holding a config matching `CONFIG_PARAMS` with a null
dependent link, while every other address (in particular the mint PDA)
is occupied. -/
def unlinkedLedger : Ledger := ⟨some (some (initConfig CONFIG_PARAMS 7 7)), fun _ => true⟩

/-- C10 witness: the manual-intervention path instantiated at an
occupied mint PDA with an unlinked config. -/
theorem unlinked_mint_manual_witness :
    (runScript plainEnv unlinkedLedger).exitCode = 0 ∧
    Action.initializeDependent ∉ (runScript plainEnv unlinkedLedger).submitted.map Prod.fst :=
  ⟨(unlinked_mint_manual plainEnv unlinkedLedger (initConfig CONFIG_PARAMS 7 7)
      (fun _ => rfl) rfl rfl rfl).1,
   (unlinked_mint_manual plainEnv unlinkedLedger (initConfig CONFIG_PARAMS 7 7)
      (fun _ => rfl) rfl rfl rfl).2.2.1⟩

end Arkham
